import Mathlib

/-!
Verification of the Inspektor client (natural-language-to-SQL negotiation
front end) against its specification.  The definitions below are a shallow
embedding of the TypeScript sources under `client/src`; theorems settle the
spec's claims about credential confinement, loop prevention, auto-approval
bounds, error-correction bounding and the metadata-approval workflow.
-/

namespace Inspektor

/-! ## Data model shared by the services (`client/src/types/database.ts`) -/

/-- Credentials stored by the Tauri side for one database connection. -/
structure DatabaseCredentials where
  db_type : String
  host : String
  port : Nat
  database : String
  username : String
  password : String
  file_path : Option String
  db_schema : Option String
  deriving Repr, DecidableEq

/-! ## `client/src/services/llm-improved.ts` (request bodies)

The functions in `llm-improved.ts` build JSON bodies for the reasoning
service.  We embed each body as a structure whose fields are exactly the
keys of the JSON object the source serialises. -/

/-- Embeds `buildConnectionObject` (llm-improved.ts lines 11-22): the
connection object placed into request bodies, copying every credential
field verbatim. -/
structure ConnectionObject where
  db_type : String
  host : String
  port : Nat
  database : String
  username : String
  password : String
  file_path : Option String
  db_schema : Option String
  deriving Repr, DecidableEq

def buildConnectionObject (credentials : DatabaseCredentials) : ConnectionObject :=
  { db_type := credentials.db_type
    host := credentials.host
    port := credentials.port
    database := credentials.database
    username := credentials.username
    password := credentials.password
    file_path := credentials.file_path
    db_schema := credentials.db_schema }

/-- Body of `POST /query` sent by `processQueryImproved` (lines 34-54):
only the query text. -/
structure ProcessQueryImprovedBody where
  query : String
  deriving Repr, DecidableEq

def processQueryImprovedBody (query : String) : ProcessQueryImprovedBody :=
  { query := query }

/-- Body of `POST /error-feedback` sent by `sendErrorFeedbackImproved`
(lines 59-85): carries the full connection object. -/
structure ErrorFeedbackImprovedBody where
  database_id : String
  sql : String
  error_message : String
  original_query : String
  connection : ConnectionObject
  deriving Repr, DecidableEq

def sendErrorFeedbackImprovedBody (databaseId sql errorMessage originalQuery : String)
    (credentials : DatabaseCredentials) : ErrorFeedbackImprovedBody :=
  { database_id := databaseId
    sql := sql
    error_message := errorMessage
    original_query := originalQuery
    connection := buildConnectionObject credentials }

/-- Body of `POST /schema-info` sent by `getSchemaInfo` (lines 90-110):
also carries the full connection object. -/
structure SchemaInfoBody where
  database_id : String
  connection : ConnectionObject
  deriving Repr, DecidableEq

def getSchemaInfoBody (databaseId : String) (credentials : DatabaseCredentials) :
    SchemaInfoBody :=
  { database_id := databaseId
    connection := buildConnectionObject credentials }

end Inspektor

namespace Inspektor

/-- Concrete credentials used to exhibit the credential leak. -/
def leakCreds : DatabaseCredentials :=
  { db_type := "postgres"
    host := "db.internal.example"
    port := 5432
    database := "prod"
    username := "svc_user"
    password := "hunter2"
    file_path := none
    db_schema := none }

/-- C1: the claim states that no database credentials (username, password,
host) ever cross the client-to-Planner boundary in any operation including
error feedback and schema-info requests.  The code contradicts this: the
`/error-feedback` and `/schema-info` bodies built by
`sendErrorFeedbackImproved` and `getSchemaInfo` contain the stored
username, password and host verbatim.  This theorem evaluates both bodies
at concrete credentials and exhibits the leak. -/
theorem credentials_cross_planner_boundary :
    (sendErrorFeedbackImprovedBody "db1" "SELECT 1" "err" "q" leakCreds).connection.password
        = "hunter2"
    ∧ (sendErrorFeedbackImprovedBody "db1" "SELECT 1" "err" "q" leakCreds).connection.username
        = "svc_user"
    ∧ (sendErrorFeedbackImprovedBody "db1" "SELECT 1" "err" "q" leakCreds).connection.host
        = "db.internal.example"
    ∧ (getSchemaInfoBody "db1" leakCreds).connection.password = "hunter2" := by
  refine ⟨rfl, rfl, rfl, rfl⟩

end Inspektor

namespace Inspektor

/-! ## Metadata Cache and loop prevention

The Metadata Cache and the loop check live in the server (`server/cache.py`
and the negotiation engine), which is not part of the client sources; they
are modelled from the specification. -/

/-- Modelled from the spec: the exact type+params pair identifying one
metadata request for one datastore (the server-side cache keying is not in
the client sources). -/
structure MetaKey where
  datastoreId : String
  metadataType : String
  params : String
  deriving Repr, DecidableEq

/-- Modelled from the spec: default cache TTL of 24 hours (in milliseconds). -/
def cacheTtl : Nat := 24 * 60 * 60 * 1000

/-- Modelled from the spec: the Metadata Cache keeps a last-merged timestamp
per (datastore, metadata type, params). -/
structure MetadataCache where
  entries : List (MetaKey × Nat)
  deriving Repr

def MetadataCache.lookupTs (c : MetadataCache) (k : MetaKey) : Option Nat :=
  (c.entries.find? (fun e => e.1 = k)).map (fun e => e.2)

/-- Modelled from the spec: an entry is fresh while its TTL has not elapsed;
a `get` past TTL behaves as absence. -/
def MetadataCache.freshAt (c : MetadataCache) (k : MetaKey) (now : Nat) : Bool :=
  match c.lookupTs k with
  | some t => decide (now < t + cacheTtl)
  | none => false

/-- Modelled from the spec: merge refreshes the entry's timestamp (keyed upsert). -/
def MetadataCache.mergeAt (c : MetadataCache) (k : MetaKey) (now : Nat) : MetadataCache :=
  { entries := (k, now) :: c.entries.filter (fun e => e.1 ≠ k) }

inductive MetaOutcome where
  | loopDetectedError
  | fetched
  deriving Repr, DecidableEq

/-- Result of handling one `NeedsMetadata` action: the outcome, the cache
afterwards, and how many Executor round-trips were performed. -/
structure MetaStepResult where
  outcome : MetaOutcome
  cache : MetadataCache
  executorCalls : Nat

/-- Modelled from the spec: on `NeedsMetadata`, the engine first checks the
Metadata Cache — a fresh entry satisfying this exact type+params means
`LoopDetectedError` and a direct transition to terminal `Error`, with no
Executor call; otherwise one Executor round-trip followed by a merge. -/
def handleNeedsMetadata (c : MetadataCache) (k : MetaKey) (now : Nat) : MetaStepResult :=
  if c.freshAt k now then
    ⟨MetaOutcome.loopDetectedError, c, 0⟩
  else
    ⟨MetaOutcome.fetched, c.mergeAt k now, 1⟩

/-- C2: requesting identical metadata (same type+params) for one datastore a
second time within the cache TTL, after a first request that actually
fetched, yields `LoopDetectedError` on the second request and performs no
second Executor round-trip. -/
theorem loop_detected_on_duplicate_request (c : MetadataCache) (k : MetaKey) (t0 t1 : Nat)
    (h0 : c.freshAt k t0 = false) (h1 : t1 < t0 + cacheTtl) :
    (handleNeedsMetadata c k t0).executorCalls = 1
    ∧ (handleNeedsMetadata (handleNeedsMetadata c k t0).cache k t1).outcome
        = MetaOutcome.loopDetectedError
    ∧ (handleNeedsMetadata (handleNeedsMetadata c k t0).cache k t1).executorCalls = 0 := by
  have hr : handleNeedsMetadata c k t0 = ⟨MetaOutcome.fetched, c.mergeAt k t0, 1⟩ := by
    simp [handleNeedsMetadata, h0]
  have hfresh : (c.mergeAt k t0).freshAt k t1 = true := by
    simp [MetadataCache.freshAt, MetadataCache.mergeAt, MetadataCache.lookupTs,
      List.find?, h1]
  refine ⟨by simp [hr], ?_, ?_⟩ <;> rw [hr] <;>
    simp [handleNeedsMetadata, hfresh]

/-- Witness for C2: a concrete duplicate request 1000 ms after the first. -/
theorem loop_detected_on_duplicate_request_witness :
    (handleNeedsMetadata ⟨[]⟩ ⟨"ds1", "tables", ""⟩ 0).executorCalls = 1
    ∧ (handleNeedsMetadata (handleNeedsMetadata ⟨[]⟩ ⟨"ds1", "tables", ""⟩ 0).cache
        ⟨"ds1", "tables", ""⟩ 1000).outcome = MetaOutcome.loopDetectedError
    ∧ (handleNeedsMetadata (handleNeedsMetadata ⟨[]⟩ ⟨"ds1", "tables", ""⟩ 0).cache
        ⟨"ds1", "tables", ""⟩ 1000).executorCalls = 0 :=
  loop_detected_on_duplicate_request ⟨[]⟩ ⟨"ds1", "tables", ""⟩ 0 1000 rfl (by decide)

end Inspektor

namespace Inspektor

/-! ## Auto-approval bound (`QueryInterface.tsx` + `MetadataApproval.tsx` v2)

`QueryInterface.tsx` owns `maxAutoApprovals` (initial 5) and
`autoApprovalCount` (initial 0).  The Max input's onChange clamps the
parsed value via `Math.min(10, Math.max(1, parseInt(v) || 5))`.
`MetadataApproval`'s auto-approve effect fires only while
`currentAutoApprovalCount < maxAutoApprovals`; on an auto-approved request
the parent increments the counter by one. -/

/-- Embeds the Max input onChange (QueryInterface.tsx lines 466-468):
`Math.min(10, Math.max(1, parseInt(e.target.value) || 5))`.  `none` models
a NaN parse; JS `|| 5` replaces both NaN and 0 by 5. -/
def clampMaxAutoApprovals (parsed : Option Int) : Int :=
  min 10 (max 1 (match parsed with
    | none => 5
    | some 0 => 5
    | some n => n))

structure AutoApprovalState where
  maxAutoApprovals : Int
  autoApprovalCount : Nat
  deriving Repr, DecidableEq

/-- Initial React state: `useState(5)` and `useState(0)`. -/
def initialAutoApprovalState : AutoApprovalState :=
  { maxAutoApprovals := 5, autoApprovalCount := 0 }

/-- The UI events affecting the auto-approval state: editing the Max input,
an auto-approved metadata request (guarded by the effect's
`currentAutoApprovalCount < maxAutoApprovals` check), a manual approval
(which does not touch the counter), and a conversation change (which
resets the counter to zero). -/
inductive AutoEvent where
  | setMax (parsed : Option Int)
  | autoApprove
  | manualApprove
  | conversationChange
  deriving Repr, DecidableEq

def autoStep (s : AutoApprovalState) (e : AutoEvent) : AutoApprovalState :=
  match e with
  | AutoEvent.setMax parsed => { s with maxAutoApprovals := clampMaxAutoApprovals parsed }
  | AutoEvent.autoApprove =>
      if (s.autoApprovalCount : Int) < s.maxAutoApprovals then
        { s with autoApprovalCount := s.autoApprovalCount + 1 }
      else s
  | AutoEvent.manualApprove => s
  | AutoEvent.conversationChange => { s with autoApprovalCount := 0 }

def runAuto (events : List AutoEvent) : AutoApprovalState :=
  events.foldl autoStep initialAutoApprovalState

lemma clampMaxAutoApprovals_le_ten (parsed : Option Int) :
    clampMaxAutoApprovals parsed ≤ 10 := by
  unfold clampMaxAutoApprovals
  exact min_le_left _ _

lemma autoStep_inv (s : AutoApprovalState) (e : AutoEvent)
    (h : s.maxAutoApprovals ≤ 10 ∧ (s.autoApprovalCount : Int) ≤ 10) :
    (autoStep s e).maxAutoApprovals ≤ 10
    ∧ ((autoStep s e).autoApprovalCount : Int) ≤ 10 := by
  obtain ⟨hm, hc⟩ := h
  cases e with
  | setMax parsed => exact ⟨clampMaxAutoApprovals_le_ten parsed, hc⟩
  | autoApprove =>
      by_cases hlt : (s.autoApprovalCount : Int) < s.maxAutoApprovals
      · refine ⟨by simpa [autoStep, hlt] using hm, ?_⟩
        have : (s.autoApprovalCount : Int) + 1 ≤ 10 := by omega
        simpa [autoStep, hlt] using this
      · exact ⟨by simpa [autoStep, hlt] using hm, by simpa [autoStep, hlt] using hc⟩
  | manualApprove => exact ⟨hm, hc⟩
  | conversationChange => exact ⟨hm, by simp [autoStep]⟩

lemma foldl_autoStep_inv (events : List AutoEvent) (s : AutoApprovalState)
    (h : s.maxAutoApprovals ≤ 10 ∧ (s.autoApprovalCount : Int) ≤ 10) :
    (events.foldl autoStep s).maxAutoApprovals ≤ 10
    ∧ ((events.foldl autoStep s).autoApprovalCount : Int) ≤ 10 := by
  induction events generalizing s with
  | nil => simpa using h
  | cons e es ih => exact ih (autoStep s e) (autoStep_inv s e h)

/-- C3 counterexample: the claim as stated says the counter never exceeds
the configured bound; but the Max input stays editable mid-conversation, so
lowering the bound below the current counter leaves the counter above the
bound.  Concrete trace: two auto-approvals under the initial bound 5, then
the user sets Max to 1. -/
theorem auto_counter_can_exceed_bound :
    ¬ ((runAuto [AutoEvent.autoApprove, AutoEvent.autoApprove,
          AutoEvent.setMax (some 1)]).autoApprovalCount : Int)
      ≤ (runAuto [AutoEvent.autoApprove, AutoEvent.autoApprove,
          AutoEvent.setMax (some 1)]).maxAutoApprovals := by
  decide

/-- C3 amended: along every UI trace the configured bound never exceeds 10
(the onChange clamp guarantees it) and the counter never exceeds 10; and
once the counter has reached or passed the bound, an auto-approve attempt
leaves the state unchanged — the request is not auto-approved and awaits an
explicit external decision.  The counter can only stand above the bound
when the bound was lowered beneath it; an auto-approval step itself never
raises the counter past the bound. -/
theorem auto_bound_and_counter_capped (events : List AutoEvent) (s : AutoApprovalState)
    (h : s.maxAutoApprovals ≤ (s.autoApprovalCount : Int)) :
    (runAuto events).maxAutoApprovals ≤ 10
    ∧ ((runAuto events).autoApprovalCount : Int) ≤ 10
    ∧ autoStep s AutoEvent.autoApprove = s := by
  refine ⟨(foldl_autoStep_inv events initialAutoApprovalState (by decide)).1,
    (foldl_autoStep_inv events initialAutoApprovalState (by decide)).2, ?_⟩
  have hnlt : ¬ (s.autoApprovalCount : Int) < s.maxAutoApprovals := not_lt.mpr h
  simp [autoStep, hnlt]

/-- Witness for C3's amended theorem: a concrete trace and a concrete state
whose counter has reached the bound. -/
theorem auto_bound_and_counter_capped_witness :
    (runAuto [AutoEvent.setMax (some 99), AutoEvent.autoApprove]).maxAutoApprovals ≤ 10
    ∧ ((runAuto [AutoEvent.setMax (some 99), AutoEvent.autoApprove]).autoApprovalCount : Int)
        ≤ 10
    ∧ autoStep ⟨2, 2⟩ AutoEvent.autoApprove = ⟨2, 2⟩ :=
  auto_bound_and_counter_capped [AutoEvent.setMax (some 99), AutoEvent.autoApprove]
    ⟨2, 2⟩ (by decide)

end Inspektor

namespace Inspektor

/-! ## Error-Correction Loop bounding

The consecutive-failure counter of the Error-Correction Loop lives in the
server (the negotiation engine), which is not part of the client sources;
it is modelled from the specification (section 4.5). -/

/-- Modelled from the spec: per-(conversation, originalIntent)
consecutive-failure counters of the Error-Correction Loop (server-side code
not under the client sources). -/
structure ECState where
  failures : List ((String × String) × Nat)
  deriving Repr

def ECState.empty : ECState := ⟨[]⟩

def ECState.count (s : ECState) (k : String × String) : Nat :=
  ((s.failures.find? (fun e => e.1 = k)).map (fun e => e.2)).getD 0

def ECState.setCount (s : ECState) (k : String × String) (n : Nat) : ECState :=
  ⟨(k, n) :: s.failures.filter (fun e => e.1 ≠ k)⟩

/-- On success the consecutive-failure counter of the intent resets, so that
only consecutive failures accumulate. -/
def ECState.resetOnSuccess (s : ECState) (k : String × String) : ECState :=
  s.setCount k 0

/-- Outcome of `onExecutionFailure`: the updated counters, whether a
terminal `Error` was forced, and how many Planner calls were issued. -/
structure ECResult where
  state : ECState
  terminalError : Bool
  plannerCalls : Nat
  deriving Repr

/-- Modelled from the spec: `onExecutionFailure` records the failure,
increments the consecutive-failure counter for (conversation,
originalIntent), and — once 3 consecutive failures for the same intent have
accumulated — forces a terminal `Error` instead of re-invoking the Planner
for another correction. -/
def onExecutionFailure (s : ECState) (conversationId originalIntent : String) : ECResult :=
  if 3 ≤ s.count (conversationId, originalIntent) + 1 then
    ⟨s.setCount (conversationId, originalIntent)
        (s.count (conversationId, originalIntent) + 1), true, 0⟩
  else
    ⟨s.setCount (conversationId, originalIntent)
        (s.count (conversationId, originalIntent) + 1), false, 1⟩

lemma ECState.count_setCount (s : ECState) (k : String × String) (n : Nat) :
    (s.setCount k n).count k = n := by
  simp [ECState.count, ECState.setCount, List.find?]

lemma ECState.count_empty (k : String × String) : ECState.empty.count k = 0 := by
  simp [ECState.count, ECState.empty]

/-- C4: three consecutive `ExecutionError` failures for one original intent
in one conversation — the first two failures each trigger one corrective
Planner call, the third forces a terminal `Error` with no further Planner
call, so no fourth Planner call is ever issued for that intent. -/
theorem third_failure_terminal_without_fourth_planner_call (conv intent : String) :
    (onExecutionFailure ECState.empty conv intent).terminalError = false
    ∧ (onExecutionFailure ECState.empty conv intent).plannerCalls = 1
    ∧ (onExecutionFailure (onExecutionFailure ECState.empty conv intent).state
        conv intent).terminalError = false
    ∧ (onExecutionFailure (onExecutionFailure ECState.empty conv intent).state
        conv intent).plannerCalls = 1
    ∧ (onExecutionFailure (onExecutionFailure (onExecutionFailure ECState.empty
        conv intent).state conv intent).state conv intent).terminalError = true
    ∧ (onExecutionFailure (onExecutionFailure (onExecutionFailure ECState.empty
        conv intent).state conv intent).state conv intent).plannerCalls = 0 := by
  have h0 : ECState.empty.count (conv, intent) = 0 := ECState.count_empty _
  have r1 : onExecutionFailure ECState.empty conv intent
      = ⟨ECState.empty.setCount (conv, intent) 1, false, 1⟩ := by
    simp [onExecutionFailure, h0]
  have h1 : (ECState.empty.setCount (conv, intent) 1).count (conv, intent) = 1 :=
    ECState.count_setCount _ _ _
  have r2 : onExecutionFailure (ECState.empty.setCount (conv, intent) 1) conv intent
      = ⟨(ECState.empty.setCount (conv, intent) 1).setCount (conv, intent) 2, false, 1⟩ := by
    simp [onExecutionFailure, h1]
  have h2 : ((ECState.empty.setCount (conv, intent) 1).setCount
      (conv, intent) 2).count (conv, intent) = 2 := ECState.count_setCount _ _ _
  have r3 : onExecutionFailure ((ECState.empty.setCount (conv, intent) 1).setCount
        (conv, intent) 2) conv intent
      = ⟨((ECState.empty.setCount (conv, intent) 1).setCount (conv, intent) 2).setCount
          (conv, intent) 3, true, 0⟩ := by
    simp [onExecutionFailure, h2]
  rw [r1]
  simp only [r2]
  simp [r2, r3]

end Inspektor

namespace Inspektor

/-! ## User-message submission and the continuation signal

`services/llm.ts` (v2) builds the `/query` body; `QueryInterface.tsx` v2
guards submission with `if (!query.trim()) return;`; `MetadataApproval.tsx`
(v2, auto-mode variant) continues after a metadata merge by calling
`processQuery(databaseId, '', conversationId)`. -/

/-- Body of `POST /query` sent by `processQuery` in `services/llm.ts`
(v2 service, lines 6-28). -/
structure ProcessQueryBody where
  database_id : String
  query : String
  conversation_id : Option String
  deriving Repr, DecidableEq

def processQueryBody (databaseId query : String) (conversationId : Option String) :
    ProcessQueryBody :=
  { database_id := databaseId, query := query, conversation_id := conversationId }

/-- Body of `POST /conversations/{id}/message` sent by `sendMessage`
(`services/llm.ts` v2, lines 80-104); the conversation id rides in the path. -/
structure SendMessageBody where
  conversation_id : String
  message : String
  database_id : String
  deriving Repr, DecidableEq

/-- The outbound request chosen by `handleSubmitQuery`. -/
inductive OutboundRequest where
  | processQuery (body : ProcessQueryBody)
  | sendMessage (body : SendMessageBody)
  deriving Repr, DecidableEq

/-- JavaScript `String.prototype.trim`: strips leading and trailing
whitespace (executable model over the character list). -/
def jsTrim (s : String) : String :=
  String.mk (((s.data.dropWhile Char.isWhitespace).reverse.dropWhile
    Char.isWhitespace).reverse)

/-- Embeds `handleSubmitQuery` (QueryInterface.tsx v2, lines 262-292):
`if (!query.trim()) return;`, then an active conversation receives the text
via `sendMessage` and a fresh one via `processQuery`. -/
def handleSubmitQuery (conversationId : Option String) (databaseId query : String) :
    Option OutboundRequest :=
  if jsTrim query = "" then none
  else some (match conversationId with
    | some cid => OutboundRequest.sendMessage ⟨cid, query, databaseId⟩
    | none => OutboundRequest.processQuery (processQueryBody databaseId query none))

/-- Embeds the continuation call after a metadata merge
(`MetadataApproval` auto-mode variant, line 103):
`processQuery(databaseId, '', conversationId)` — the query text is the
empty string. -/
def continuationRequest (databaseId conversationId : String) : ProcessQueryBody :=
  processQueryBody databaseId "" (some conversationId)

/-- C5 counterexample: the claim says continuation is signalled by a
`Continue` event structurally distinct from a user message and that string
emptiness is never the control signal; but the continuation request is the
very same `/query` body a user message uses, with the empty string as its
query text — emptiness IS the control signal. -/
theorem continuation_is_empty_string_signal :
    (continuationRequest "db1" "conv1").query = ""
    ∧ continuationRequest "db1" "conv1" = processQueryBody "db1" "" (some "conv1") :=
  ⟨rfl, rfl⟩

/-- C5 amended: whitespace-only user input is never submitted (the submit
handler returns without any request), while the continuation after a
metadata merge reuses the plain `/query` request with the empty string as
the query text — string emptiness, not a distinct `Continue` event, is the
control signal (the server is documented not to append it as a user
message). -/
theorem no_whitespace_user_message_submitted (conversationId : Option String)
    (databaseId query convId2 : String) (h : jsTrim query = "") :
    handleSubmitQuery conversationId databaseId query = none
    ∧ (continuationRequest databaseId convId2).query = "" :=
  ⟨by simp [handleSubmitQuery, h], rfl⟩

/-- Witness for C5's amended theorem at a whitespace-only input. -/
theorem no_whitespace_user_message_submitted_witness :
    handleSubmitQuery (some "conv1") "db1" "   " = none
    ∧ (continuationRequest "db1" "conv2").query = "" :=
  no_whitespace_user_message_submitted (some "conv1") "db1" "   " "conv2" (by decide)

end Inspektor

namespace Inspektor

/-! ## Per-conversation counter lifecycle (`QueryInterface.tsx` v2)

The `loadMessages` effect (lines 225-248) runs whenever `conversationId`
changes and resets `autoApprovalCount` to zero (both its null branch and
its switch branch); `handleMetadataApproved` (lines 308-316) increments the
counter only for auto-approved requests and then applies the response's
conversation id; `handleNewConversation` (lines 374-386) clears the id and
resets the counter. -/

/-- The slice of the component state the counter lifecycle touches. -/
structure ConvUiState where
  conversationId : Option String
  autoApprovalCount : Nat
  deriving Repr, DecidableEq

/-- Embeds `handleLLMResponse` line 296-298 plus the `loadMessages` effect:
a response carrying a conversation id stores it, and if the id actually
changed the effect resets the counter; a response without an id changes
nothing. -/
def applyConversationId (s : ConvUiState) (respConvId : Option String) : ConvUiState :=
  match respConvId with
  | none => s
  | some c =>
      if s.conversationId = some c then s
      else { conversationId := some c, autoApprovalCount := 0 }

/-- Events that touch the conversation id or the auto-approval counter. -/
inductive ConvEvent where
  | metadataApproved (wasAutoApproved : Bool) (respConvId : Option String)
  | llmResponse (respConvId : Option String)
  | selectConversation (cid : String)
  | newConversation
  deriving Repr, DecidableEq

/-- One UI step: `handleMetadataApproved` increments on auto-approval and
then applies the response's conversation id; `handleSelectConversation`
sets the id (the `loadMessages` effect resets the counter when it differs);
`handleNewConversation` clears the id and resets the counter. -/
def convStep (s : ConvUiState) (e : ConvEvent) : ConvUiState :=
  match e with
  | ConvEvent.metadataApproved wasAuto respConvId =>
      applyConversationId
        (if wasAuto then { s with autoApprovalCount := s.autoApprovalCount + 1 } else s)
        respConvId
  | ConvEvent.llmResponse respConvId => applyConversationId s respConvId
  | ConvEvent.selectConversation cid =>
      if s.conversationId = some cid then s
      else { conversationId := some cid, autoApprovalCount := 0 }
  | ConvEvent.newConversation => { conversationId := none, autoApprovalCount := 0 }

lemma applyConversationId_cases (s : ConvUiState) (r : Option String) :
    applyConversationId s r = s
    ∨ ((applyConversationId s r).autoApprovalCount = 0
        ∧ (applyConversationId s r).conversationId ≠ s.conversationId) := by
  cases r with
  | none => exact Or.inl rfl
  | some c =>
      by_cases h : s.conversationId = some c
      · exact Or.inl (by simp [applyConversationId, h])
      · refine Or.inr ⟨by simp [applyConversationId, h], ?_⟩
        simp only [applyConversationId, h, if_false]
        exact fun hc => h hc.symm

/-- C6: within one conversation the auto-approval counter never decreases —
any step that leaves the active conversation unchanged (other than the New
Conversation action) can only keep or increment the counter — and every
step that changes the active conversation, as well as starting a new
conversation, resets the counter to zero. -/
theorem counter_monotone_and_resets_on_switch (s : ConvUiState) (e : ConvEvent)
    (h : e ≠ ConvEvent.newConversation) :
    ((convStep s e).conversationId = s.conversationId →
        s.autoApprovalCount ≤ (convStep s e).autoApprovalCount)
    ∧ ((convStep s e).conversationId ≠ s.conversationId →
        (convStep s e).autoApprovalCount = 0)
    ∧ (convStep s ConvEvent.newConversation).autoApprovalCount = 0 := by
  refine ⟨?_, ?_, rfl⟩
  · intro hid
    cases e with
    | metadataApproved wasAuto respConvId =>
        cases wasAuto with
        | false =>
            rcases applyConversationId_cases s respConvId with hc | hc
            · simp [convStep, hc]
            · exact absurd (by simpa [convStep] using hid) hc.2
        | true =>
            rcases applyConversationId_cases
                { s with autoApprovalCount := s.autoApprovalCount + 1 } respConvId
              with hc | hc
            · simp [convStep, hc]
            · exact absurd (by simpa [convStep] using hid) hc.2
    | llmResponse respConvId =>
        rcases applyConversationId_cases s respConvId with hc | hc
        · simp [convStep, hc]
        · exact absurd (by simpa [convStep] using hid) hc.2
    | selectConversation cid =>
        by_cases hc : s.conversationId = some cid
        · simp [convStep, hc]
        · have hid2 : some cid = s.conversationId := by simpa [convStep, hc] using hid
          exact absurd hid2.symm hc
    | newConversation => exact absurd rfl h
  · intro hid
    cases e with
    | metadataApproved wasAuto respConvId =>
        cases wasAuto with
        | false =>
            rcases applyConversationId_cases s respConvId with hc | hc
            · exact absurd (by simpa [convStep] using congrArg ConvUiState.conversationId hc)
                (by simpa [convStep] using hid)
            · simpa [convStep] using hc.1
        | true =>
            rcases applyConversationId_cases
                { s with autoApprovalCount := s.autoApprovalCount + 1 } respConvId
              with hc | hc
            · exact absurd (by simpa [convStep] using congrArg ConvUiState.conversationId hc)
                (by simpa [convStep] using hid)
            · simpa [convStep] using hc.1
    | llmResponse respConvId =>
        rcases applyConversationId_cases s respConvId with hc | hc
        · exact absurd (by simpa [convStep] using congrArg ConvUiState.conversationId hc)
            (by simpa [convStep] using hid)
        · simpa [convStep] using hc.1
    | selectConversation cid =>
        by_cases hc : s.conversationId = some cid
        · exact absurd (by simp [convStep, hc]) hid
        · simp [convStep, hc]
    | newConversation => exact absurd rfl h

/-- Witness for C6 at a concrete state and an auto-approved metadata event
that keeps the conversation. -/
theorem counter_monotone_and_resets_on_switch_witness :
    ((convStep ⟨some "c1", 3⟩ (ConvEvent.metadataApproved true (some "c1"))).conversationId
        = (⟨some "c1", 3⟩ : ConvUiState).conversationId →
      (⟨some "c1", 3⟩ : ConvUiState).autoApprovalCount
        ≤ (convStep ⟨some "c1", 3⟩
            (ConvEvent.metadataApproved true (some "c1"))).autoApprovalCount)
    ∧ ((convStep ⟨some "c1", 3⟩ (ConvEvent.metadataApproved true (some "c1"))).conversationId
        ≠ (⟨some "c1", 3⟩ : ConvUiState).conversationId →
      (convStep ⟨some "c1", 3⟩
          (ConvEvent.metadataApproved true (some "c1"))).autoApprovalCount = 0)
    ∧ (convStep ⟨some "c1", 3⟩ ConvEvent.newConversation).autoApprovalCount = 0 :=
  counter_monotone_and_resets_on_switch ⟨some "c1", 3⟩
    (ConvEvent.metadataApproved true (some "c1")) (by decide)

end Inspektor

namespace Inspektor

/-! ## SQL execution failure handling (`QueryInterface.tsx` v2 and
`QueryInterfaceImproved.tsx`) -/

/-- A persisted conversation message (`services/conversations.ts`). -/
structure Message where
  id : String
  role : String
  content : String
  deriving Repr, DecidableEq

/-- Embeds lines 337-338 of `QueryInterface.tsx` v2:
`messages.find(m => m.role === 'user')` then `userMessage?.content || ''` —
the FIRST user-role message's content, or the empty string when none
exists. -/
def originalQueryOf (messages : List Message) : String :=
  ((messages.find? (fun m => m.role = "user")).map Message.content).getD ""

/-- Body of `POST /error-feedback` sent by `sendErrorFeedback`
(`services/llm.ts` v2, lines 52-78): no connection object, only ids, the
failing SQL, the raw error text and the original query. -/
structure ErrorFeedbackBody where
  database_id : String
  conversation_id : String
  sql : String
  error_message : String
  original_query : String
  deriving Repr, DecidableEq

/-- Result of `executeSqlQuery`: success, or the thrown error as the string
`String(err)` the component computes. -/
inductive ExecOutcome where
  | ok
  | fail (errorString : String)
  deriving Repr, DecidableEq

/-- State produced by one run of `handleExecuteSQL`
(QueryInterface.tsx v2, lines 318-357): the surfaced error text and the
error-feedback request issued, if any. -/
structure ExecSqlState where
  error : Option String
  feedback : Option ErrorFeedbackBody
  deriving Repr, DecidableEq

/-- Embeds `handleExecuteSQL` (QueryInterface.tsx v2, lines 318-357): on
failure it surfaces `String(err)` via `setError` and, when a conversation
is active, sends `sendErrorFeedback(databaseId, conversationId, sql,
errorMessage, originalQuery)` where `originalQuery` is the first user
message's content; with no active conversation no feedback is sent. -/
def handleExecuteSQL (databaseId : String) (conversationId : Option String)
    (messages : List Message) (sql : String) (outcome : ExecOutcome) : ExecSqlState :=
  match outcome with
  | ExecOutcome.ok => { error := none, feedback := none }
  | ExecOutcome.fail err =>
      { error := some err
        feedback :=
          match conversationId with
          | some cid => some
              { database_id := databaseId
                conversation_id := cid
                sql := sql
                error_message := err
                original_query := originalQueryOf messages }
          | none => none }

/-- State produced by the failure branch of `handleExecuteSQL` in
`QueryInterfaceImproved.tsx` (lines 71-119) at the moment the failure is
surfaced: error text, the failing SQL stored for display, and the feedback
request (sent only when credentials are loaded).  The later overwrite of
`error` by the correction response still embeds the raw message verbatim. -/
structure ExecSqlImprovedState where
  error : Option String
  failedSQL : Option String
  feedback : Option ErrorFeedbackImprovedBody
  deriving Repr, DecidableEq

def handleExecuteSQLImproved (databaseId : String)
    (credentials : Option DatabaseCredentials) (query sql : String)
    (outcome : ExecOutcome) : ExecSqlImprovedState :=
  match outcome with
  | ExecOutcome.ok => { error := none, failedSQL := none, feedback := none }
  | ExecOutcome.fail err =>
      { error := some err
        failedSQL := some sql
        feedback := credentials.map
          (fun c => sendErrorFeedbackImprovedBody databaseId sql err query c) }

/-- C7: when SQL execution fails, the failing SQL text and the raw error
message are carried verbatim into the error-feedback request sent to the
Planner, the raw error is surfaced to the user unchanged, and the improved
interface additionally surfaces the failing SQL itself — nothing is
swallowed or summarized. -/
theorem failing_sql_and_error_preserved_verbatim (databaseId cid query sql err : String)
    (messages : List Message) (credentials : DatabaseCredentials) :
    (handleExecuteSQL databaseId (some cid) messages sql (ExecOutcome.fail err)).error
        = some err
    ∧ (handleExecuteSQL databaseId (some cid) messages sql (ExecOutcome.fail err)).feedback
        = some { database_id := databaseId, conversation_id := cid, sql := sql,
                 error_message := err, original_query := originalQueryOf messages }
    ∧ (handleExecuteSQLImproved databaseId (some credentials) query sql
        (ExecOutcome.fail err)).error = some err
    ∧ (handleExecuteSQLImproved databaseId (some credentials) query sql
        (ExecOutcome.fail err)).failedSQL = some sql
    ∧ (handleExecuteSQLImproved databaseId (some credentials) query sql
        (ExecOutcome.fail err)).feedback
        = some (sendErrorFeedbackImprovedBody databaseId sql err query credentials) :=
  ⟨rfl, rfl, rfl, rfl, rfl⟩

lemma originalQueryOf_first_user (pre post : List Message) (u : Message)
    (hu : u.role = "user") (hpre : ∀ m ∈ pre, m.role ≠ "user") :
    originalQueryOf (pre ++ u :: post) = u.content := by
  induction pre with
  | nil => simp [originalQueryOf, List.find?, hu]
  | cons m ms ih =>
      have hm : ¬ (m.role = "user") := hpre m (by simp)
      have ih2 := ih (fun x hx => hpre x (List.mem_cons_of_mem m hx))
      simpa [originalQueryOf, List.find?, hm] using ih2

/-- C9: error feedback always carries the content of the FIRST user message
of the conversation as the original intent — not a later user message —
and when no conversation is active no feedback request is sent at all. -/
theorem feedback_uses_first_user_message (databaseId cid sql err : String)
    (pre post : List Message) (u : Message)
    (hu : u.role = "user") (hpre : ∀ m ∈ pre, m.role ≠ "user") :
    (handleExecuteSQL databaseId (some cid) (pre ++ u :: post) sql
        (ExecOutcome.fail err)).feedback
      = some { database_id := databaseId, conversation_id := cid, sql := sql,
               error_message := err, original_query := u.content }
    ∧ (handleExecuteSQL databaseId none (pre ++ u :: post) sql
        (ExecOutcome.fail err)).feedback = none := by
  refine ⟨?_, rfl⟩
  simp [handleExecuteSQL, originalQueryOf_first_user pre post u hu hpre]

/-- Witness for C9: a conversation whose first user message differs from the
most recent one; the feedback names the first. -/
theorem feedback_uses_first_user_message_witness :
    (handleExecuteSQL "db1" (some "c1")
        [⟨"m0", "system", "sys"⟩, ⟨"m1", "user", "first question"⟩,
         ⟨"m2", "assistant", "sql a"⟩, ⟨"m3", "user", "second question"⟩]
        "SELECT 1" (ExecOutcome.fail "boom")).feedback
      = some { database_id := "db1", conversation_id := "c1", sql := "SELECT 1",
               error_message := "boom", original_query := "first question" }
    ∧ (handleExecuteSQL "db1" none
        [⟨"m0", "system", "sys"⟩, ⟨"m1", "user", "first question"⟩,
         ⟨"m2", "assistant", "sql a"⟩, ⟨"m3", "user", "second question"⟩]
        "SELECT 1" (ExecOutcome.fail "boom")).feedback = none :=
  feedback_uses_first_user_message "db1" "c1" "SELECT 1" "boom"
    [⟨"m0", "system", "sys"⟩]
    [⟨"m2", "assistant", "sql a"⟩, ⟨"m3", "user", "second question"⟩]
    ⟨"m1", "user", "first question"⟩ (by decide) (by decide)

end Inspektor

namespace Inspektor

/-! ## Metadata approval workflow (`MetadataApproval`, auto-mode variant and
legacy `MetadataApproval.tsx`)

`handleApprove` gathers the requested metadata through the Tauri Executor
services, submits it to the LLM server, and re-queries; any thrown error —
a failed Executor call, an unknown metadata type, an invalid schema params
shape, or a failed submission/re-query — lands in the catch block, which
logs to the console and invokes `onRejected()`. -/

/-- The value found under `params.tables`: a JS array of table names, or a
non-array value (on which `Array.isArray` fails). -/
inductive TablesParam where
  | arr (names : List String)
  | nonArray
  deriving Repr, DecidableEq

/-- `MetadataRequest` (types/database.ts) restricted to the fields the
components read: the type, the `tables` param (auto-mode variant), the
`table_name` param (legacy variant) and the display reason. -/
structure MetadataRequest where
  metadata_type : String
  params_tables : Option TablesParam
  params_table_name : Option String
  reason : String
  deriving Repr, DecidableEq

/-- One Executor (Tauri) call made while gathering metadata. -/
inductive ExecutorCall where
  | getDatabaseTables
  | getDatabaseTableSchema (tablesArg : String)
  | getDatabaseRelationships
  deriving Repr, DecidableEq

/-- The SQL-style quote character, written by code point to keep the
formatting explicit. -/
def sqlQuote : String := "\x27"

/-- The schema call argument built at line 74 of the auto-mode component:
backtick-template `(${tableNames.map(t => quoted t).join(', ')})`. -/
def formatTableNames (names : List String) : String :=
  "(" ++ String.intercalate ", " (names.map (fun n => sqlQuote ++ n ++ sqlQuote)) ++ ")"

/-- A table row returned by `getDatabaseTables`; the component keeps only
`t.name`. -/
structure TableInfo where
  name : String
  deriving Repr, DecidableEq

/-- The response of the continuation `processQuery` call. -/
structure QueryResponse where
  status : String
  conversation_id : Option String
  deriving Repr, DecidableEq

/-- Results of the external calls `handleApprove` may make, each either a
value or a thrown error (Executor failure, network failure, ...). -/
structure ApproveEffects where
  tablesCall : Except String (List TableInfo)
  schemaCall : Except String (List (String × List String))
  relationshipsCall : Except String (List String)
  submitCall : Except String Unit
  continueCall : Except String QueryResponse

/-- The metadata payload assembled before submission: `{ tables: [...] }`,
the per-table schema dictionary, or `{ relationships: [...] }`. -/
inductive MetadataPayload where
  | tables (names : List String)
  | schemaDict (entries : List (String × List String))
  | relationships (rels : List String)
  deriving Repr, DecidableEq

inductive ApproveOutcome where
  | approved (response : QueryResponse)
  | rejected
  deriving Repr, DecidableEq

/-- Trace of one `handleApprove` run: its outcome, the Executor calls made,
and the payload submitted to the LLM server (none when submission was never
reached). -/
structure ApproveRun where
  outcome : ApproveOutcome
  executorCalls : List ExecutorCall
  submitted : Option MetadataPayload
  deriving Repr, DecidableEq

/-- The tail of `handleApprove` after gathering succeeded: `submitMetadata`
then the continuation `processQuery`; an error in either lands in the catch
block and rejects. -/
def submitAndContinue (payload : MetadataPayload) (calls : List ExecutorCall)
    (fx : ApproveEffects) : ApproveRun :=
  match fx.submitCall with
  | Except.error _ => ⟨ApproveOutcome.rejected, calls, none⟩
  | Except.ok _ =>
      match fx.continueCall with
      | Except.error _ => ⟨ApproveOutcome.rejected, calls, some payload⟩
      | Except.ok resp => ⟨ApproveOutcome.approved resp, calls, some payload⟩

/-- Embeds `handleApprove` of the auto-mode `MetadataApproval` (lines
53-114): switch on `metadata_type`; the schema case throws before any
Executor call unless `params.tables` is a non-empty array; the default case
throws `Unknown metadata type`; every throw is caught and turns into
`onRejected()`. -/
def handleApprove (req : MetadataRequest) (fx : ApproveEffects) : ApproveRun :=
  match req.metadata_type with
  | "tables" =>
      match fx.tablesCall with
      | Except.error _ => ⟨ApproveOutcome.rejected, [ExecutorCall.getDatabaseTables], none⟩
      | Except.ok ts =>
          submitAndContinue (MetadataPayload.tables (ts.map TableInfo.name))
            [ExecutorCall.getDatabaseTables] fx
  | "schema" =>
      match req.params_tables with
      | some (TablesParam.arr (n :: ns)) =>
          match fx.schemaCall with
          | Except.error _ =>
              ⟨ApproveOutcome.rejected,
                [ExecutorCall.getDatabaseTableSchema (formatTableNames (n :: ns))], none⟩
          | Except.ok schemas =>
              submitAndContinue (MetadataPayload.schemaDict schemas)
                [ExecutorCall.getDatabaseTableSchema (formatTableNames (n :: ns))] fx
      | _ => ⟨ApproveOutcome.rejected, [], none⟩
  | "relationships" =>
      match fx.relationshipsCall with
      | Except.error _ =>
          ⟨ApproveOutcome.rejected, [ExecutorCall.getDatabaseRelationships], none⟩
      | Except.ok rels =>
          submitAndContinue (MetadataPayload.relationships rels)
            [ExecutorCall.getDatabaseRelationships] fx
  | _ => ⟨ApproveOutcome.rejected, [], none⟩

/-- Embeds `handleApprove` of the legacy `MetadataApproval.tsx` (lines
25-69): the schema case reads `params.table_name` and throws when it is
falsy (absent or empty). -/
def handleApproveLegacy (req : MetadataRequest) (fx : ApproveEffects) : ApproveRun :=
  match req.metadata_type with
  | "tables" =>
      match fx.tablesCall with
      | Except.error _ => ⟨ApproveOutcome.rejected, [ExecutorCall.getDatabaseTables], none⟩
      | Except.ok ts =>
          submitAndContinue (MetadataPayload.tables (ts.map TableInfo.name))
            [ExecutorCall.getDatabaseTables] fx
  | "schema" =>
      match req.params_table_name with
      | some tableName =>
          if tableName = "" then ⟨ApproveOutcome.rejected, [], none⟩
          else
            match fx.schemaCall with
            | Except.error _ =>
                ⟨ApproveOutcome.rejected,
                  [ExecutorCall.getDatabaseTableSchema tableName], none⟩
            | Except.ok schemas =>
                submitAndContinue (MetadataPayload.schemaDict schemas)
                  [ExecutorCall.getDatabaseTableSchema tableName] fx
      | none => ⟨ApproveOutcome.rejected, [], none⟩
  | "relationships" =>
      match fx.relationshipsCall with
      | Except.error _ =>
          ⟨ApproveOutcome.rejected, [ExecutorCall.getDatabaseRelationships], none⟩
      | Except.ok rels =>
          submitAndContinue (MetadataPayload.relationships rels)
            [ExecutorCall.getDatabaseRelationships] fx
  | _ => ⟨ApproveOutcome.rejected, [], none⟩

/-- The fixed message the parent surfaces from its `onRejected` callback
(QueryInterface.tsx v2, lines 557-560). -/
def rejectionMessage : String := "Metadata request was rejected by user"

/-- The error state the parent surfaces after one approval attempt: the
rejection callback sets the fixed message; an approved response is passed
on without setting this error. -/
def parentErrorAfter (run : ApproveRun) : Option String :=
  match run.outcome with
  | ApproveOutcome.approved _ => none
  | ApproveOutcome.rejected => some rejectionMessage

/-- What the parent surfaces when the user explicitly clicks Reject: the
same `onRejected` callback. -/
def parentErrorOnUserReject : Option String := some rejectionMessage

end Inspektor

namespace Inspektor

lemma submitAndContinue_rejected_of_submit_error (payload : MetadataPayload)
    (calls : List ExecutorCall) (fx : ApproveEffects) (e : String)
    (h : fx.submitCall = Except.error e) :
    (submitAndContinue payload calls fx).outcome = ApproveOutcome.rejected := by
  simp [submitAndContinue, h]

/-- C8: whenever an approved metadata request fails — an Executor error, an
unknown metadata type, an invalid params shape, or a network failure during
submission or re-planning — the component invokes the rejection callback,
so the caller surfaces exactly the fixed message
"Metadata request was rejected by user"; the outcome is indistinguishable
from an explicit user rejection at the public interface and the underlying
error text never reaches the user. -/
theorem executor_failure_surfaces_user_rejection_message (req : MetadataRequest)
    (fx : ApproveEffects) (e : String)
    (h : fx.submitCall = Except.error e
      ∨ (handleApprove req fx).outcome = ApproveOutcome.rejected) :
    (handleApprove req fx).outcome = ApproveOutcome.rejected
    ∧ parentErrorAfter (handleApprove req fx) = some rejectionMessage
    ∧ parentErrorAfter (handleApprove req fx) = parentErrorOnUserReject := by
  have hrej : (handleApprove req fx).outcome = ApproveOutcome.rejected := by
    rcases h with h | h
    · unfold handleApprove
      repeat' split
      all_goals first
        | rfl
        | exact submitAndContinue_rejected_of_submit_error _ _ _ e h
    · exact h
  exact ⟨hrej, by simp [parentErrorAfter, hrej],
    by simp [parentErrorAfter, hrej, parentErrorOnUserReject]⟩

/-- Witness for C8: the Executor gathered the tables fine, but the
submission to the LLM server failed with a network error; the surfaced
error is the fixed user-rejection message. -/
theorem executor_failure_surfaces_user_rejection_message_witness :
    (handleApprove ⟨"tables", none, none, "need the table list"⟩
        ⟨Except.ok [⟨"users"⟩], Except.ok [], Except.ok [],
         Except.error "network down", Except.ok ⟨"ready", none⟩⟩).outcome
      = ApproveOutcome.rejected
    ∧ parentErrorAfter (handleApprove ⟨"tables", none, none, "need the table list"⟩
        ⟨Except.ok [⟨"users"⟩], Except.ok [], Except.ok [],
         Except.error "network down", Except.ok ⟨"ready", none⟩⟩)
      = some rejectionMessage
    ∧ parentErrorAfter (handleApprove ⟨"tables", none, none, "need the table list"⟩
        ⟨Except.ok [⟨"users"⟩], Except.ok [], Except.ok [],
         Except.error "network down", Except.ok ⟨"ready", none⟩⟩)
      = parentErrorOnUserReject :=
  executor_failure_surfaces_user_rejection_message
    ⟨"tables", none, none, "need the table list"⟩
    ⟨Except.ok [⟨"users"⟩], Except.ok [], Except.ok [],
     Except.error "network down", Except.ok ⟨"ready", none⟩⟩
    "network down" (Or.inl rfl)

/-- The schema-case validity check of the auto-mode component (line 70):
`params.tables` must be an array with at least one element. -/
def hasNonEmptyTablesArray : Option TablesParam → Bool
  | some (TablesParam.arr (_ :: _)) => true
  | _ => false

/-- The legacy falsiness check (line 41): `!tableName` holds for an absent
or empty `table_name`. -/
def tableNameFalsy : Option String → Bool
  | none => true
  | some s => s = ""

/-- C10: a schema metadata request without a non-empty `tables` array (or,
in the legacy component, with a missing/empty `table_name`) throws before
any Executor schema call and before any submission: the run rejects with no
Executor call made and nothing submitted. -/
theorem schema_request_without_tables_never_contacts_executor
    (req : MetadataRequest) (fx : ApproveEffects)
    (hty : req.metadata_type = "schema")
    (hp : hasNonEmptyTablesArray req.params_tables = false)
    (hleg : tableNameFalsy req.params_table_name = true) :
    handleApprove req fx = ⟨ApproveOutcome.rejected, [], none⟩
    ∧ handleApproveLegacy req fx = ⟨ApproveOutcome.rejected, [], none⟩ := by
  obtain ⟨mt, pt, ptn, rsn⟩ := req
  replace hty : mt = "schema" := hty
  replace hp : hasNonEmptyTablesArray pt = false := hp
  replace hleg : tableNameFalsy ptn = true := hleg
  subst hty
  constructor
  · cases pt with
    | none => rfl
    | some tp =>
        cases tp with
        | nonArray => rfl
        | arr names =>
            cases names with
            | nil => rfl
            | cons n ns => exact absurd hp (by simp [hasNonEmptyTablesArray])
  · cases ptn with
    | none => rfl
    | some s =>
        have hs : s = "" := by simpa [tableNameFalsy] using hleg
        subst hs
        rfl

/-- Witness for C10: a schema request whose `tables` param is present but
not an array, with no legacy `table_name`. -/
theorem schema_request_without_tables_never_contacts_executor_witness :
    handleApprove ⟨"schema", some TablesParam.nonArray, none, "need schema"⟩
        ⟨Except.ok [], Except.ok [], Except.ok [], Except.ok (),
         Except.ok ⟨"ready", none⟩⟩
      = ⟨ApproveOutcome.rejected, [], none⟩
    ∧ handleApproveLegacy ⟨"schema", some TablesParam.nonArray, none, "need schema"⟩
        ⟨Except.ok [], Except.ok [], Except.ok [], Except.ok (),
         Except.ok ⟨"ready", none⟩⟩
      = ⟨ApproveOutcome.rejected, [], none⟩ :=
  schema_request_without_tables_never_contacts_executor
    ⟨"schema", some TablesParam.nonArray, none, "need schema"⟩
    ⟨Except.ok [], Except.ok [], Except.ok [], Except.ok (),
     Except.ok ⟨"ready", none⟩⟩
    rfl rfl rfl

end Inspektor
